import Mathlib

/-!
Shallow embedding of the tusd upload-lifecycle hook protocol: the canonical
request/response model and directive resolver (modelled from the spec, since
the protocol core is not among the provided sources), and the example hook
handlers plus the byte-size parser of the load-test plotting script (embedded
from the provided Python sources).
-/

/-- JSON values, as exchanged by the structured-text wire encoding and as
built by the HTTP example handler (dicts keep insertion order, as in
Python 3.7+). -/
inductive JVal where
  | str (s : String)
  | num (n : Int)
  | bool (b : Bool)
  | obj (fields : List (String × JVal))

mutual

/-- `json.dumps` with default separators, restricted to the value shapes the
handler emits (object keys and string values here never need escaping). -/
def jdump : JVal → String
  | .str s => "\"" ++ s ++ "\""
  | .num n => toString n
  | .bool b => if b then "true" else "false"
  | .obj fs => "\x7b" ++ jdumpEntries fs ++ "\x7d"

def jdumpEntries : List (String × JVal) → String
  | [] => ""
  | [(k, v)] => "\"" ++ k ++ "\": " ++ jdump v
  | (k, v) :: r₂ :: r => "\"" ++ k ++ "\": " ++ jdump v ++ ", " ++ jdumpEntries (r₂ :: r)

end

/-- Key lookup in a JSON object's field list (first occurrence). -/
def jLookup : List (String × JVal) → String → Option JVal
  | [], _ => none
  | (k, v) :: rest, key => if k = key then some v else jLookup rest key

/-- The six lifecycle points of the canonical model. -/
inductive HookType where
  | preCreate
  | postCreate
  | postReceive
  | postFinish
  | postTerminate
  | preAccess
deriving DecidableEq, Repr

/-- Wire name of each hook type, as it appears in both encodings. -/
def parseHookType : String → Option HookType
  | "pre-create" => some HookType.preCreate
  | "post-create" => some HookType.postCreate
  | "post-receive" => some HookType.postReceive
  | "post-finish" => some HookType.postFinish
  | "post-terminate" => some HookType.postTerminate
  | "pre-access" => some HookType.preAccess
  | _ => none

/-- Canonical `Upload` entity (spec section 3). Mappings are association
lists in insertion order. -/
structure Upload where
  id : String
  size : Option Int
  offset : Int
  metaData : List (String × String)
  storage : List (String × String)
deriving DecidableEq, Repr

/-- Canonical `AccessEvent` (spec section 3): present only for pre-access. -/
structure AccessEvent where
  mode : String
  files : List Upload
deriving DecidableEq, Repr

/-- Causing HTTP request data inside the event payload (spec section 3). -/
structure HTTPRequestInfo where
  method : String
  uri : String
  remoteAddr : String
  headers : List (String × String)
deriving DecidableEq, Repr

/-- Event payload of a hook request (spec section 3). -/
structure HookEvent where
  upload : Upload
  httpRequest : HTTPRequestInfo
  access : Option AccessEvent
deriving DecidableEq, Repr

/-- Canonical `HookRequest` (spec section 3). -/
structure HookRequest where
  type : HookType
  event : HookEvent
deriving DecidableEq, Repr

/-- `httpResponse` directive of a hook response: override of the HTTP
response sent to the uploading client; every field optional. -/
structure HTTPResponseData where
  statusCode : Option Int
  body : Option String
  headers : Option (List (String × String))
deriving DecidableEq, Repr

/-- `changeFileInfo` directive: optional rewrite of the upload's id and/or
metadata. An unset `metaData` (none) leaves metadata untouched; a
present-but-empty mapping (some []) clears it. -/
structure ChangeFileInfo where
  id : Option String
  metaData : Option (List (String × String))
deriving DecidableEq, Repr

/-- Canonical `HookResponse` (spec section 3): independently settable
directives. -/
structure HookResponse where
  rejectUpload : Bool
  stopUpload : Bool
  changeFileInfo : Option ChangeFileInfo
  httpResponse : HTTPResponseData
deriving DecidableEq, Repr

/-! ## Structured-text (JSON) codec for `HookResponse`.

Modelled from the spec, section 4.2: the codec implementation is not among
the provided sources. Field names follow the fixed capitalization convention
(`RejectUpload`, `HTTPResponse.StatusCode`, ...); absent optional fields
decode to unset, distinguishable from present-but-empty values; unknown
fields are ignored on decode. -/

def asBool : JVal → Option Bool
  | .bool b => some b
  | _ => none

def asInt : JVal → Option Int
  | .num n => some n
  | _ => none

def asStr : JVal → Option String
  | .str s => some s
  | _ => none

/-- Entries of a JSON object of string values, decoded in order. -/
def decodeStrEntries : List (String × JVal) → Option (List (String × String))
  | [] => some []
  | (k, v) :: rest => do
      let s ← asStr v
      let r ← decodeStrEntries rest
      some ((k, s) :: r)

/-- Decode a JSON object into a string-to-string mapping. -/
def decodeStrMap : JVal → Option (List (String × String))
  | .obj fs => decodeStrEntries fs
  | _ => none

/-- Encode a string-to-string mapping as a JSON object. -/
def encodeStrMap (m : List (String × String)) : JVal :=
  .obj (m.map (fun p => (p.1, JVal.str p.2)))

/-- An optional field: an absent key decodes to unset (`none`); a present
value must decode with `f`. -/
def optField {α : Type} (f : JVal → Option α) (fs : List (String × JVal))
    (k : String) : Option (Option α) :=
  match jLookup fs k with
  | none => some none
  | some v => (f v).map some

/-- A boolean field: an absent key decodes to `false`. -/
def boolField (fs : List (String × JVal)) (k : String) : Option Bool :=
  match jLookup fs k with
  | none => some false
  | some v => asBool v

/-- Modelled from the spec: JSON encoding of the `httpResponse` directive,
emitting only the fields that are set. -/
def encodeHTTPResponseJSON (h : HTTPResponseData) : JVal :=
  .obj ((match h.statusCode with
          | some n => [("StatusCode", JVal.num n)]
          | none => []) ++
        (match h.body with
          | some b => [("Body", JVal.str b)]
          | none => []) ++
        (match h.headers with
          | some hs => [("Headers", encodeStrMap hs)]
          | none => []))

/-- Modelled from the spec: JSON decoding of the `httpResponse` directive. -/
def decodeHTTPResponseJSON : JVal → Option HTTPResponseData
  | .obj fs => do
      let sc ← optField asInt fs "StatusCode"
      let bd ← optField asStr fs "Body"
      let hd ← optField decodeStrMap fs "Headers"
      some ⟨sc, bd, hd⟩
  | _ => none

/-- Modelled from the spec: JSON encoding of the `changeFileInfo` directive;
an unset `metaData` emits no key at all, a present-but-empty one emits an
empty object. -/
def encodeChangeFileInfoJSON (c : ChangeFileInfo) : JVal :=
  .obj ((match c.id with
          | some i => [("ID", JVal.str i)]
          | none => []) ++
        (match c.metaData with
          | some m => [("MetaData", encodeStrMap m)]
          | none => []))

/-- Modelled from the spec: JSON decoding of the `changeFileInfo` directive. -/
def decodeChangeFileInfoJSON : JVal → Option ChangeFileInfo
  | .obj fs => do
      let i ← optField asStr fs "ID"
      let m ← optField decodeStrMap fs "MetaData"
      some ⟨i, m⟩
  | _ => none

/-- Modelled from the spec: JSON encoding of a `HookResponse`. -/
def encodeResponseJSON (r : HookResponse) : JVal :=
  .obj ([("RejectUpload", JVal.bool r.rejectUpload),
         ("StopUpload", JVal.bool r.stopUpload)] ++
        (match r.changeFileInfo with
          | some c => [("ChangeFileInfo", encodeChangeFileInfoJSON c)]
          | none => []) ++
        [("HTTPResponse", encodeHTTPResponseJSON r.httpResponse)])

/-- Modelled from the spec: JSON decoding of a `HookResponse`; unknown keys
are ignored, absent booleans decode to `false`, an absent `HTTPResponse`
decodes to the all-unset override. -/
def decodeResponseJSON : JVal → Option HookResponse
  | .obj fs => do
      let rj ← boolField fs "RejectUpload"
      let st ← boolField fs "StopUpload"
      let cfi ← optField decodeChangeFileInfoJSON fs "ChangeFileInfo"
      let hr ← match jLookup fs "HTTPResponse" with
        | none => some (HTTPResponseData.mk none none none)
        | some v => decodeHTTPResponseJSON v
      some ⟨rj, st, cfi, hr⟩
  | _ => none

/-! ## Binary-schema codec for `HookResponse`.

Modelled from the spec, section 4.2: the generated schema code is not among
the provided sources (only the service stubs naming its serializers are).
The encoding is modelled at the level of numbered fields: fixed field
numbers, nested messages for sub-structures, and submessage presence used to
honor the unset/empty distinction of section 4.2. Decode rejects unknown
field numbers rather than ignoring them. -/

/-- Abstract wire values of the binary-schema encoding. -/
inductive PBVal where
  | varint (n : Int)
  | str (s : String)
  | msg (fields : List (Nat × PBVal))

/-- Field lookup in a message (first occurrence of the field number). -/
def pbLookup : List (Nat × PBVal) → Nat → Option PBVal
  | [], _ => none
  | (n, v) :: rest, key => if n = key then some v else pbLookup rest key

def asStrPB : PBVal → Option String
  | .str s => some s
  | _ => none

def asIntPB : PBVal → Option Int
  | .varint n => some n
  | _ => none

/-- Booleans ride as varints; any nonzero value decodes to `true`. -/
def asBoolPB : PBVal → Option Bool
  | .varint n => some (decide (n ≠ 0))
  | _ => none

/-- An optional field: an absent field number decodes to unset. -/
def optFieldPB {α : Type} (f : PBVal → Option α) (fs : List (Nat × PBVal))
    (k : Nat) : Option (Option α) :=
  match pbLookup fs k with
  | none => some none
  | some v => (f v).map some

/-- A boolean field: an absent field number decodes to `false`. -/
def boolFieldPB (fs : List (Nat × PBVal)) (k : Nat) : Option Bool :=
  match pbLookup fs k with
  | none => some false
  | some v => asBoolPB v

/-- A string-to-string mapping rides as repeated entry messages
(key = field 1, value = field 2) under field number 1 of a wrapper
message. -/
def encodeStrMapPB (m : List (String × String)) : PBVal :=
  .msg (m.map (fun p => (1, PBVal.msg [(1, PBVal.str p.1), (2, PBVal.str p.2)])))

def decodeMapEntryPB : PBVal → Option (String × String)
  | .msg fs => do
      let k ← (pbLookup fs 1).bind asStrPB
      let v ← (pbLookup fs 2).bind asStrPB
      some (k, v)
  | _ => none

def decodeMapEntriesPB : List (Nat × PBVal) → Option (List (String × String))
  | [] => some []
  | (n, v) :: rest =>
      if n = 1 then do
        let e ← decodeMapEntryPB v
        let r ← decodeMapEntriesPB rest
        some (e :: r)
      else none

def decodeStrMapPB : PBVal → Option (List (String × String))
  | .msg fs => decodeMapEntriesPB fs
  | _ => none

/-- Modelled from the spec: binary encoding of the `httpResponse` directive
(1 = statusCode, 2 = body, 3 = headers), emitting only set fields. -/
def encodeHTTPResponsePB (h : HTTPResponseData) : PBVal :=
  .msg ((match h.statusCode with
          | some n => [(1, PBVal.varint n)]
          | none => []) ++
        (match h.body with
          | some b => [(2, PBVal.str b)]
          | none => []) ++
        (match h.headers with
          | some hs => [(3, encodeStrMapPB hs)]
          | none => []))

/-- Modelled from the spec: binary decoding of the `httpResponse`
directive; unknown field numbers are rejected. -/
def decodeHTTPResponsePB : PBVal → Option HTTPResponseData
  | .msg fs =>
      if fs.all (fun p => p.1 == 1 || p.1 == 2 || p.1 == 3) then do
        let sc ← optFieldPB asIntPB fs 1
        let bd ← optFieldPB asStrPB fs 2
        let hd ← optFieldPB decodeStrMapPB fs 3
        some ⟨sc, bd, hd⟩
      else none
  | _ => none

/-- Modelled from the spec: binary encoding of the `changeFileInfo`
directive (1 = id, 2 = metaData). -/
def encodeChangeFileInfoPB (c : ChangeFileInfo) : PBVal :=
  .msg ((match c.id with
          | some i => [(1, PBVal.str i)]
          | none => []) ++
        (match c.metaData with
          | some m => [(2, encodeStrMapPB m)]
          | none => []))

/-- Modelled from the spec: binary decoding of the `changeFileInfo`
directive; unknown field numbers are rejected. -/
def decodeChangeFileInfoPB : PBVal → Option ChangeFileInfo
  | .msg fs =>
      if fs.all (fun p => p.1 == 1 || p.1 == 2) then do
        let i ← optFieldPB asStrPB fs 1
        let m ← optFieldPB decodeStrMapPB fs 2
        some ⟨i, m⟩
      else none
  | _ => none

/-- Modelled from the spec: binary encoding of a `HookResponse`
(1 = rejectUpload, 2 = stopUpload, 3 = changeFileInfo, 4 = httpResponse). -/
def encodeResponsePB (r : HookResponse) : PBVal :=
  .msg ([(1, PBVal.varint (if r.rejectUpload then 1 else 0)),
         (2, PBVal.varint (if r.stopUpload then 1 else 0))] ++
        (match r.changeFileInfo with
          | some c => [(3, encodeChangeFileInfoPB c)]
          | none => []) ++
        [(4, encodeHTTPResponsePB r.httpResponse)])

/-- Modelled from the spec: binary decoding of a `HookResponse`; unknown
field numbers are rejected, absent booleans decode to `false`, an absent
`httpResponse` message decodes to the all-unset override. -/
def decodeResponsePB : PBVal → Option HookResponse
  | .msg fs =>
      if fs.all (fun p => p.1 == 1 || p.1 == 2 || p.1 == 3 || p.1 == 4) then do
        let rj ← boolFieldPB fs 1
        let st ← boolFieldPB fs 2
        let cfi ← optFieldPB decodeChangeFileInfoPB fs 3
        let hr ← match pbLookup fs 4 with
          | none => some (HTTPResponseData.mk none none none)
          | some v => decodeHTTPResponsePB v
        some ⟨rj, st, cfi, hr⟩
      else none
  | _ => none

/-! ## Canonical construction and the Directive Resolver.

Modelled from the spec, sections 4.1, 4.3 and 7: the protocol core is not
among the provided sources. -/

/-- Errors of canonical-model construction (spec section 4.1). -/
inductive ValidationError where
  | unknownType (s : String)
  | accessMismatch (t : HookType)
deriving DecidableEq, Repr

/-- Modelled from the spec: construction of a canonical `HookRequest` from
raw values fails with a `ValidationError` when the type string is not a
known enumerated value, or when `access` is present for a non-pre-access
type or absent for a pre-access one (spec section 4.1). -/
def mkHookRequest (tyStr : String) (ev : HookEvent) :
    Except ValidationError HookRequest :=
  match parseHookType tyStr with
  | none => .error (.unknownType tyStr)
  | some ty =>
      if ev.access.isSome ↔ ty = HookType.preAccess then .ok ⟨ty, ev⟩
      else .error (.accessMismatch ty)

/-- A response directive inconsistent with the hook type that produced it
(spec sections 4.3 and 7): reported, not silently ignored. -/
inductive Violation where
  | stopUploadInvalidType (t : HookType)
  | changeFileInfoInvalidType (t : HookType)
deriving DecidableEq, Repr

/-- The resolved, mutually exclusive effect applied to the upload. -/
inductive Outcome where
  | proceed
  | proceedWithMutation (c : ChangeFileInfo)
  | reject (http : HTTPResponseData)
  | stopAfterCompletion (http : HTTPResponseData)
deriving DecidableEq, Repr

/-- `stopUpload` is valid only for post-receive (spec section 4.3, rule 2). -/
def stopViolations (ty : HookType) (r : HookResponse) : List Violation :=
  if r.stopUpload ∧ ty ≠ HookType.postReceive then
    [.stopUploadInvalidType ty]
  else []

/-- `changeFileInfo` is valid only for pre-create (spec section 4.3,
rule 3). -/
def cfiViolations (ty : HookType) (r : HookResponse) : List Violation :=
  match r.changeFileInfo with
  | some _ => if ty = HookType.preCreate then [] else [.changeFileInfoInvalidType ty]
  | none => []

/-- Rules 3 and 4 of the resolution order: a valid `changeFileInfo` yields
proceed-with-mutation, anything else proceeds. -/
def proceedOrMutate (ty : HookType) (r : HookResponse) : Outcome :=
  match r.changeFileInfo with
  | some c => if ty = HookType.preCreate then .proceedWithMutation c else .proceed
  | none => .proceed

/-- The outcome part of resolution: reject first (statusCode defaulting to
400 when unset), then a valid stop, then a valid mutation, else proceed. -/
def resolveOutcome (ty : HookType) (r : HookResponse) : Outcome :=
  if r.rejectUpload then
    .reject { r.httpResponse with
                statusCode := some (r.httpResponse.statusCode.getD 400) }
  else if r.stopUpload ∧ ty = HookType.postReceive then
    .stopAfterCompletion r.httpResponse
  else
    proceedOrMutate ty r

/-- Modelled from the spec: the Directive Resolver (spec sections 4.3
and 7). Resolution follows the precedence order of section 4.3; directives
invalid for the hook type are surfaced as `Violation`s alongside the
outcome (section 7: reported, with the upload proceeding, unless reject
wins). -/
def resolve (ty : HookType) (r : HookResponse) : Outcome × List Violation :=
  (resolveOutcome ty r, stopViolations ty r ++ cfiViolations ty r)

/-- Modelled from the spec: applying a `changeFileInfo` directive to an
upload. A present `metaData` replaces the entire metadata mapping (not a
merge); a present `id` replaces the identifier (spec section 3). -/
def applyChangeFileInfo (u : Upload) (c : ChangeFileInfo) : Upload :=
  { u with
      id := c.id.getD u.id,
      metaData := c.metaData.getD u.metaData }

/-! ## The HTTP example handler, embedded from
`examples/hooks/http/server.py`.

The handler body is modelled as a function of the decoded request (valid
hook requests carry the fields the handler reads) and of the two ambient
values it samples (`uuid.uuid4()` and `time.ctime()`). Response dict
literals are written in Python insertion order. -/

/-- The fields of the incoming wire request that the handlers read. The
`access` part is only read by the gRPC handler, where the schema makes it
always present (defaulting to empty). -/
structure WireHookRequest where
  reqType : String
  upload : Upload
  access : AccessEvent
deriving DecidableEq, Repr

/-- The JSON hook response built by `HTTPHookHandler.do_POST`
(lines 26-51 of `examples/hooks/http/server.py`). -/
def httpHookResponseJson (req : WireHookRequest) (uuidStr ctimeStr : String) :
    JVal :=
  if req.reqType = "pre-create" then
    match req.upload.metaData.lookup "filename" with
    | none =>
        JVal.obj [("HTTPResponse",
                    JVal.obj [("Headers", JVal.obj [("X-Some-Header", JVal.str "yes")]),
                              ("StatusCode", JVal.num 400),
                              ("Body", JVal.str "no filename provided")]),
                  ("RejectUpload", JVal.bool true)]
    | some v =>
        JVal.obj [("HTTPResponse", JVal.obj [("Headers", JVal.obj [])]),
                  ("ChangeFileInfo",
                    JVal.obj [("ID", JVal.str ("prefix-" ++ uuidStr)),
                              ("MetaData",
                                JVal.obj [("filename", JVal.str v),
                                          ("creation_time", JVal.str ctimeStr)])])]
  else
    JVal.obj [("HTTPResponse", JVal.obj [("Headers", JVal.obj [])])]

/-- `HTTPHookHandler.do_POST`: HTTP status, Content-Type header, and body
of the reply (lines 72-76 of `examples/hooks/http/server.py`). -/
def doPOST (req : WireHookRequest) (uuidStr ctimeStr : String) :
    Nat × String × String :=
  (200, "application/json", jdump (httpHookResponseJson req uuidStr ctimeStr))

/-! ## The gRPC example handler, embedded from
`examples/hooks/grpc/server.py`.

The handler builds a `HookResponse` message, which coincides with the
canonical model. `event.access.files[0]` is indexed unconditionally on
pre-access; an empty `files` sequence raises an IndexError before any
response is returned, modelled as `none`. -/

/-- `HookHandler.InvokeHook` (lines 13-65 of
`examples/hooks/grpc/server.py`). -/
def InvokeHook (req : WireHookRequest) (uuidStr ctimeStr : String) :
    Option HookResponse :=
  let base : HookResponse := ⟨false, false, none, ⟨none, none, none⟩⟩
  let afterPreCreate : HookResponse :=
    if req.reqType = "pre-create" then
      match req.upload.metaData.lookup "filename" with
      | none =>
          { base with
              rejectUpload := true,
              httpResponse := ⟨some 400, some "no filename provided",
                               some [("X-Some-Header", "yes")]⟩ }
      | some v =>
          { base with
              changeFileInfo := some ⟨some ("prefix-" ++ uuidStr),
                                      some [("filename", v),
                                            ("creation_time", ctimeStr)]⟩ }
    else base
  if req.reqType = "pre-access" then
    match req.access.files with
    | [] => none
    | _ :: _ => some afterPreCreate
  else some afterPreCreate

/-! ## The byte-size parser, embedded from
`docker/load-tests/2_plot_resource_usage.py` (lines 32-37).

`parse_byte_size` takes the first match of the regular expression
`([0-9\.]+)([A-Za-z]+)` in the string (IndexError when there is none),
converts the number with `float` (ValueError when it has no digit or more
than one dot), looks the unit run up in `units` (KeyError when unknown),
multiplies and truncates: `int(float(number) * units[unit])`.

The arithmetic is IEEE-754 binary64: `float()` returns the nearest double
to the exact decimal value (CPython's conversion is correctly rounded),
`*` is correctly rounded binary64 multiplication (the integer factor,
at most `2^40`, converts to a double exactly), and `int()` truncates
toward zero. Doubles are modelled exactly as mantissa-exponent pairs
`(m, p)` denoting `m * 2^p`, with round-to-nearest-ties-to-even
implemented on integers, the subnormal grid `2^(-1074)`, and overflow to
infinity at `2^1024` modelled as `none` (every infinity ends in a failure
downstream: `int(inf)` raises OverflowError). All failure modes are
modelled as `none`. -/

/-- The character class `[0-9\.]`. -/
def isDigitDot (c : Char) : Bool := c.isDigit || c == '.'

/-- The `units` table of the script: decimal and binary byte units. -/
def units : List (String × Int) :=
  [("B", 1), ("kB", 10 ^ 3), ("MB", 10 ^ 6), ("GB", 10 ^ 9), ("TB", 10 ^ 12),
   ("KiB", 2 ^ 10), ("MiB", 2 ^ 20), ("GiB", 2 ^ 30), ("TiB", 2 ^ 40)]

/-- The first (leftmost) match of `([0-9\.]+)([A-Za-z]+)`: scanning finds
the first position holding a digit-or-dot whose greedy digit-or-dot run is
immediately followed by at least one letter; both groups are greedy, and
the two character classes are disjoint, so no backtracking arises. -/
def findMatch : List Char → Option (List Char × List Char)
  | [] => none
  | c :: rest =>
      if isDigitDot c then
        if (((c :: rest).dropWhile isDigitDot).takeWhile Char.isAlpha).isEmpty then
          findMatch rest
        else
          some ((c :: rest).takeWhile isDigitDot,
                ((c :: rest).dropWhile isDigitDot).takeWhile Char.isAlpha)
      else findMatch rest

/-- Decimal digits to a natural number. -/
def digitsToNat (cs : List Char) : Nat :=
  cs.foldl (fun a c => 10 * a + (c.toNat - 48)) 0

/-- Binary digit count of a natural number (0 for 0); the first argument
is fuel (the number itself suffices), making the recursion structural so
that the kernel can evaluate it. -/
def bitsAux : Nat → Nat → Nat
  | 0, _ => 0
  | fuel + 1, n => if n = 0 then 0 else bitsAux fuel (n / 2) + 1

/-- `bits n` is the number of binary digits of `n`, so for `n ≥ 1`,
`2^(bits n - 1) ≤ n < 2^(bits n)`. -/
def bits (n : Nat) : Nat := bitsAux n n

/-- Does `2^e ≤ nn / dd` hold (for `dd > 0`)? -/
def pow2le (e : Int) (nn dd : Nat) : Bool :=
  if 0 ≤ e then decide (dd * 2 ^ e.toNat ≤ nn)
  else decide (dd ≤ nn * 2 ^ (-e).toNat)

/-- The binary exponent `⌊log2 (nn/dd)⌋` of a positive fraction: the bit
counts give a candidate that is correct or one too large (`nn/dd` lies in
`(2^(e0-1), 2^(e0+1))` for `e0 = bits nn - bits dd`), settled by one
comparison. -/
def ratLog2 (nn dd : Nat) : Int :=
  if pow2le ((bits nn : Int) - (bits dd : Int)) nn dd
  then (bits nn : Int) - (bits dd : Int)
  else (bits nn : Int) - (bits dd : Int) - 1

/-- Round `nn / dd` (with `dd > 0`) to the nearest integer, ties to
even. -/
def roundHalfEven (nn dd : Nat) : Nat :=
  if 2 * (nn % dd) < dd then nn / dd
  else if dd < 2 * (nn % dd) then nn / dd + 1
  else if (nn / dd) % 2 = 0 then nn / dd else nn / dd + 1

/-- The IEEE-754 binary64 value nearest to the nonnegative fraction
`nn / dd` (with `dd > 0`), under round-to-nearest-ties-to-even: the
rounding grid is `2^(e-52)` for binary exponent `e`, clamped below to the
subnormal grid `2^(-1074)`; the result is the mantissa-exponent pair
`(m, p)` denoting `m * 2^p`, or `none` when the value rounds to or beyond
`2^1024` (infinity). -/
def roundDouble (nn dd : Nat) : Option (Nat × Int) :=
  if nn = 0 then some (0, 0)
  else
    let p : Int := max (ratLog2 nn dd - 52) (-1074)
    if 0 ≤ p then
      let m := roundHalfEven nn (dd * 2 ^ p.toNat)
      if m * 2 ^ p.toNat < 2 ^ 1024 then some (m, p) else none
    else
      let m := roundHalfEven (nn * 2 ^ (-p).toNat) dd
      some (m, p)

/-- IEEE-754 binary64 multiplication of a finite nonnegative double
`m1 * 2^p1` by a nonnegative integer factor that is exactly representable
as a double (every unit factor is at most `2^40 < 2^53`): the exact
product, correctly rounded; `none` on overflow to infinity. -/
def mulDouble (m1 : Nat) (p1 : Int) (f : Nat) : Option (Nat × Int) :=
  if 0 ≤ p1 then roundDouble (m1 * f * 2 ^ p1.toNat) 1
  else roundDouble (m1 * f) (2 ^ (-p1).toNat)

/-- Python `int()` of a nonnegative double `m * 2^p`: truncation toward
zero (which is plain division here since the value is nonnegative). -/
def doubleToInt (m : Nat) (p : Int) : Nat :=
  if 0 ≤ p then m * 2 ^ p.toNat else m / 2 ^ (-p).toNat

/-- On the digit-or-dot strings captured by the regex's first group,
Python `float` succeeds exactly when the string has at least one digit and
at most one dot. -/
def goodNumber (cs : List Char) : Bool :=
  cs.any Char.isDigit && decide (cs.count ('.') ≤ 1)

/-- Numerator of the exact decimal value of a digit-or-dot string with at
most one dot: its digits with the dot dropped. -/
def decimalNum (cs : List Char) : Nat :=
  digitsToNat (cs.filter Char.isDigit)

/-- Number of fractional digits (those after the dot, if any). -/
def fracLen (cs : List Char) : Nat :=
  match cs.dropWhile Char.isDigit with
  | [] => 0
  | _ :: fp => fp.length

/-- Denominator of the exact decimal value: `10 ^` the number of
fractional digits, so the string's exact value is
`decimalNum cs / decimalDen cs`. -/
def decimalDen (cs : List Char) : Nat :=
  10 ^ fracLen cs

/-- Python `float` on the strings captured by the regex's number group
(`[0-9\.]+`): fails (ValueError) without a digit or with a second dot,
otherwise returns the IEEE binary64 double nearest to the exact decimal
value, as a mantissa-exponent pair; `none` also stands for an overflow to
infinity, which downstream always ends in the OverflowError of
`int(inf)`. -/
def parseNumber (cs : List Char) : Option (Nat × Int) :=
  if goodNumber cs then roundDouble (decimalNum cs) (decimalDen cs) else none

/-- `parse_byte_size` of the plotting script, with its IEEE binary64
arithmetic: `int(float(number) * units[unit])` on the first regex match,
every failure mode (IndexError, ValueError, KeyError, OverflowError)
modelled as `none`. -/
def parse_byte_size (s : String) : Option Int :=
  match findMatch s.data with
  | none => none
  | some (num, u) =>
      match parseNumber num, units.lookup (String.mk u) with
      | some (m, p), some f =>
          match mulDouble m p f.toNat with
          | some (m2, p2) => some ((doubleToInt m2 p2 : Nat) : Int)
          | none => none
      | _, _ => none

/-! ## Round-trip lemmas for the two response codecs. -/

theorem decodeStrEntries_encode (m : List (String × String)) :
    decodeStrEntries (m.map (fun p => (p.1, JVal.str p.2))) = some m := by
  induction m with
  | nil => rfl
  | cons p rest ih =>
      simp [decodeStrEntries, asStr, ih]

theorem decodeStrMap_encode (m : List (String × String)) :
    decodeStrMap (encodeStrMap m) = some m := by
  simp [decodeStrMap, encodeStrMap, decodeStrEntries_encode]

theorem decodeHTTPResponseJSON_encode (h : HTTPResponseData) :
    decodeHTTPResponseJSON (encodeHTTPResponseJSON h) = some h := by
  obtain ⟨sc, bd, hd⟩ := h
  cases sc <;> cases bd <;> cases hd <;>
    simp [encodeHTTPResponseJSON, decodeHTTPResponseJSON, optField, jLookup,
          asInt, asStr, decodeStrMap_encode]

theorem decodeChangeFileInfoJSON_encode (c : ChangeFileInfo) :
    decodeChangeFileInfoJSON (encodeChangeFileInfoJSON c) = some c := by
  obtain ⟨i, m⟩ := c
  cases i <;> cases m <;>
    simp [encodeChangeFileInfoJSON, decodeChangeFileInfoJSON, optField, jLookup,
          asStr, decodeStrMap_encode]

theorem decodeResponseJSON_encode (r : HookResponse) :
    decodeResponseJSON (encodeResponseJSON r) = some r := by
  obtain ⟨rj, st, cfi, hr⟩ := r
  cases cfi <;>
    simp [encodeResponseJSON, decodeResponseJSON, boolField, optField, jLookup,
          asBool, decodeChangeFileInfoJSON_encode, decodeHTTPResponseJSON_encode]

theorem decodeMapEntriesPB_encode (m : List (String × String)) :
    decodeMapEntriesPB
      (m.map (fun p => (1, PBVal.msg [(1, PBVal.str p.1), (2, PBVal.str p.2)]))) =
      some m := by
  induction m with
  | nil => rfl
  | cons p rest ih =>
      simp [decodeMapEntriesPB, decodeMapEntryPB, pbLookup, asStrPB, ih]

theorem decodeStrMapPB_encode (m : List (String × String)) :
    decodeStrMapPB (encodeStrMapPB m) = some m := by
  simp [decodeStrMapPB, encodeStrMapPB, decodeMapEntriesPB_encode]

theorem decodeHTTPResponsePB_encode (h : HTTPResponseData) :
    decodeHTTPResponsePB (encodeHTTPResponsePB h) = some h := by
  obtain ⟨sc, bd, hd⟩ := h
  cases sc <;> cases bd <;> cases hd <;>
    simp [encodeHTTPResponsePB, decodeHTTPResponsePB, optFieldPB, pbLookup,
          asIntPB, asStrPB, decodeStrMapPB_encode]

theorem decodeChangeFileInfoPB_encode (c : ChangeFileInfo) :
    decodeChangeFileInfoPB (encodeChangeFileInfoPB c) = some c := by
  obtain ⟨i, m⟩ := c
  cases i <;> cases m <;>
    simp [encodeChangeFileInfoPB, decodeChangeFileInfoPB, optFieldPB, pbLookup,
          asStrPB, decodeStrMapPB_encode]

theorem decodeResponsePB_encode (r : HookResponse) :
    decodeResponsePB (encodeResponsePB r) = some r := by
  obtain ⟨rj, st, cfi, hr⟩ := r
  cases rj <;> cases st <;> cases cfi <;>
    simp [encodeResponsePB, decodeResponsePB, boolFieldPB, optFieldPB, pbLookup,
          asBoolPB, decodeChangeFileInfoPB_encode, decodeHTTPResponsePB_encode]

/-! ## The claims. -/

/-- C1: for every valid `HookResponse`, decoding the encoding yields the
same value field-by-field, in both wire encodings; decode-after-encode is
injective, so in particular an unset `changeFileInfo.metaData` is
distinguished after the round trip from a present-but-empty mapping. -/
theorem c1_response_roundtrip :
    (∀ r : HookResponse,
        decodeResponseJSON (encodeResponseJSON r) = some r ∧
        decodeResponsePB (encodeResponsePB r) = some r) ∧
    (∀ r₁ r₂ : HookResponse, r₁ ≠ r₂ →
        decodeResponseJSON (encodeResponseJSON r₁) ≠
          decodeResponseJSON (encodeResponseJSON r₂) ∧
        decodeResponsePB (encodeResponsePB r₁) ≠
          decodeResponsePB (encodeResponsePB r₂)) := by
  constructor
  · intro r
    exact ⟨decodeResponseJSON_encode r, decodeResponsePB_encode r⟩
  · intro r₁ r₂ hne
    rw [decodeResponseJSON_encode, decodeResponseJSON_encode,
        decodeResponsePB_encode, decodeResponsePB_encode]
    simp [hne]

/-- C1 witness: the unset/empty `changeFileInfo.metaData` distinction
survives both round trips. -/
theorem c1_response_roundtrip_witness :
    decodeResponseJSON (encodeResponseJSON
        ⟨false, false, some ⟨none, none⟩, ⟨none, none, none⟩⟩) ≠
      decodeResponseJSON (encodeResponseJSON
        ⟨false, false, some ⟨none, some []⟩, ⟨none, none, none⟩⟩) ∧
    decodeResponsePB (encodeResponsePB
        ⟨false, false, some ⟨none, none⟩, ⟨none, none, none⟩⟩) ≠
      decodeResponsePB (encodeResponsePB
        ⟨false, false, some ⟨none, some []⟩, ⟨none, none, none⟩⟩) :=
  c1_response_roundtrip.2 _ _ (by decide)

/-- C2: on a pre-create hook request whose upload metadata has no
`filename` key, both example handlers respond with `rejectUpload = true`,
`httpResponse.statusCode = 400` and body "no filename provided", and the
Directive Resolver turns that response into a Reject outcome with
status 400. -/
theorem c2_missing_filename_reject (req : WireHookRequest)
    (uuidStr ctimeStr : String)
    (hty : req.reqType = "pre-create")
    (hmd : req.upload.metaData.lookup "filename" = none) :
    decodeResponseJSON (httpHookResponseJson req uuidStr ctimeStr) =
      some ⟨true, false, none,
            ⟨some 400, some "no filename provided",
             some [("X-Some-Header", "yes")]⟩⟩ ∧
    InvokeHook req uuidStr ctimeStr =
      some ⟨true, false, none,
            ⟨some 400, some "no filename provided",
             some [("X-Some-Header", "yes")]⟩⟩ ∧
    resolve HookType.preCreate
        ⟨true, false, none,
         ⟨some 400, some "no filename provided",
          some [("X-Some-Header", "yes")]⟩⟩ =
      (Outcome.reject ⟨some 400, some "no filename provided",
                       some [("X-Some-Header", "yes")]⟩, []) := by
  refine ⟨?_, ?_, ?_⟩
  · simp only [httpHookResponseJson, hty, hmd]
    rfl
  · simp only [InvokeHook, hty, hmd]
    rfl
  · rfl

/-- C2 witness. -/
theorem c2_missing_filename_reject_witness :
    decodeResponseJSON (httpHookResponseJson
        ⟨"pre-create", ⟨"up1", none, 0, [("other", "x")], []⟩, ⟨"", []⟩⟩
        "u0" "t0") =
      some ⟨true, false, none,
            ⟨some 400, some "no filename provided",
             some [("X-Some-Header", "yes")]⟩⟩ ∧
    InvokeHook ⟨"pre-create", ⟨"up1", none, 0, [("other", "x")], []⟩, ⟨"", []⟩⟩
        "u0" "t0" =
      some ⟨true, false, none,
            ⟨some 400, some "no filename provided",
             some [("X-Some-Header", "yes")]⟩⟩ ∧
    resolve HookType.preCreate
        ⟨true, false, none,
         ⟨some 400, some "no filename provided",
          some [("X-Some-Header", "yes")]⟩⟩ =
      (Outcome.reject ⟨some 400, some "no filename provided",
                       some [("X-Some-Header", "yes")]⟩, []) :=
  c2_missing_filename_reject _ "u0" "t0" rfl (by decide)

/-- C3: a present `changeFileInfo.metaData` replaces the whole metadata
mapping, and on a pre-create request carrying a `filename` key both example
handlers respond with a metadata mapping holding exactly the keys
`filename` (copied from the request) and `creation_time`; applying that
directive to any upload leaves exactly those two keys, dropping every
other key of the request's metadata. -/
theorem c3_metadata_replacement (req : WireHookRequest)
    (uuidStr ctimeStr v : String)
    (hty : req.reqType = "pre-create")
    (hmd : req.upload.metaData.lookup "filename" = some v) :
    (∀ (u : Upload) (c : ChangeFileInfo) (m : List (String × String)),
        c.metaData = some m → (applyChangeFileInfo u c).metaData = m) ∧
    decodeResponseJSON (httpHookResponseJson req uuidStr ctimeStr) =
      some ⟨false, false,
            some ⟨some ("prefix-" ++ uuidStr),
                  some [("filename", v), ("creation_time", ctimeStr)]⟩,
            ⟨none, none, some []⟩⟩ ∧
    InvokeHook req uuidStr ctimeStr =
      some ⟨false, false,
            some ⟨some ("prefix-" ++ uuidStr),
                  some [("filename", v), ("creation_time", ctimeStr)]⟩,
            ⟨none, none, none⟩⟩ ∧
    (applyChangeFileInfo req.upload
        ⟨some ("prefix-" ++ uuidStr),
         some [("filename", v), ("creation_time", ctimeStr)]⟩).metaData =
      [("filename", v), ("creation_time", ctimeStr)] := by
  refine ⟨?_, ?_, ?_, ?_⟩
  · intro u c m hm
    simp [applyChangeFileInfo, hm]
  · simp only [httpHookResponseJson, hty, hmd]
    rfl
  · simp only [InvokeHook, hty, hmd]
    rfl
  · rfl

/-- C3 witness. -/
theorem c3_metadata_replacement_witness :
    decodeResponseJSON (httpHookResponseJson
        ⟨"pre-create", ⟨"up1", none, 0, [("filename", "a.txt"), ("other", "x")], []⟩,
         ⟨"", []⟩⟩ "u0" "t0") =
      some ⟨false, false,
            some ⟨some ("prefix-" ++ "u0"),
                  some [("filename", "a.txt"), ("creation_time", "t0")]⟩,
            ⟨none, none, some []⟩⟩ ∧
    (applyChangeFileInfo ⟨"up1", none, 0, [("filename", "a.txt"), ("other", "x")], []⟩
        ⟨some ("prefix-" ++ "u0"),
         some [("filename", "a.txt"), ("creation_time", "t0")]⟩).metaData =
      [("filename", "a.txt"), ("creation_time", "t0")] :=
  ⟨(c3_metadata_replacement
      ⟨"pre-create", ⟨"up1", none, 0, [("filename", "a.txt"), ("other", "x")], []⟩,
       ⟨"", []⟩⟩ "u0" "t0" "a.txt" rfl (by decide)).2.1,
   (c3_metadata_replacement
      ⟨"pre-create", ⟨"up1", none, 0, [("filename", "a.txt"), ("other", "x")], []⟩,
       ⟨"", []⟩⟩ "u0" "t0" "a.txt" rfl (by decide)).2.2.2⟩

/-- C4: a response with `rejectUpload = true` resolves to Reject regardless
of the hook type and of any other directive set, with the status code
defaulting to 400 when unset. -/
theorem c4_reject_wins (ty : HookType) (r : HookResponse)
    (h : r.rejectUpload = true) :
    (resolve ty r).1 =
      Outcome.reject ⟨some (r.httpResponse.statusCode.getD 400),
                      r.httpResponse.body, r.httpResponse.headers⟩ ∧
    (r.httpResponse.statusCode = none →
        (resolve ty r).1 =
          Outcome.reject ⟨some 400, r.httpResponse.body,
                          r.httpResponse.headers⟩) := by
  constructor
  · simp [resolve, resolveOutcome, h]
  · intro h0
    simp [resolve, resolveOutcome, h, h0]

/-- C4 witness: `rejectUpload = true` together with a `changeFileInfo`
mutation on pre-create still resolves to Reject with default status 400;
the mutation is ignored. -/
theorem c4_reject_wins_witness :
    (resolve HookType.preCreate
        ⟨true, false, some ⟨some "x", none⟩, ⟨none, none, none⟩⟩).1 =
      Outcome.reject ⟨some 400, none, none⟩ :=
  (c4_reject_wins HookType.preCreate
      ⟨true, false, some ⟨some "x", none⟩, ⟨none, none, none⟩⟩ rfl).2 rfl

/-- C5: a `changeFileInfo` on a hook type other than pre-create is
surfaced as a ProtocolViolation by the resolver, and accordingly on every
non-pre-create request both example handlers leave `changeFileInfo`
unset. -/
theorem c5_changeFileInfo_only_precreate (ty : HookType) (r : HookResponse)
    (req : WireHookRequest) (uuidStr ctimeStr : String)
    (hcfi : r.changeFileInfo.isSome = true) (hnty : ty ≠ HookType.preCreate)
    (hreq : req.reqType ≠ "pre-create") :
    Violation.changeFileInfoInvalidType ty ∈ (resolve ty r).2 ∧
    decodeResponseJSON (httpHookResponseJson req uuidStr ctimeStr) =
      some ⟨false, false, none, ⟨none, none, some []⟩⟩ ∧
    (∀ resp : HookResponse, InvokeHook req uuidStr ctimeStr = some resp →
        resp.changeFileInfo = none) := by
  refine ⟨?_, ?_, ?_⟩
  · obtain ⟨c, hc⟩ := Option.isSome_iff_exists.mp hcfi
    simp [resolve, cfiViolations, hc, hnty]
  · simp only [httpHookResponseJson, if_neg hreq]
    rfl
  · intro resp h
    simp only [InvokeHook, if_neg hreq] at h
    by_cases ha : req.reqType = "pre-access"
    · rw [if_pos ha] at h
      cases hf : req.access.files with
      | nil => rw [hf] at h; exact absurd h (by simp)
      | cons x xs => rw [hf] at h; simp at h; rw [← h]
    · rw [if_neg ha] at h
      simp at h
      rw [← h]

/-- C5 witness. -/
theorem c5_changeFileInfo_only_precreate_witness :
    Violation.changeFileInfoInvalidType HookType.postFinish ∈
      (resolve HookType.postFinish
        ⟨false, false, some ⟨some "x", none⟩, ⟨none, none, none⟩⟩).2 ∧
    decodeResponseJSON (httpHookResponseJson
        ⟨"post-finish", ⟨"up1", some 5, 5, [], [("Type", "s3store")]⟩, ⟨"", []⟩⟩
        "u0" "t0") =
      some ⟨false, false, none, ⟨none, none, some []⟩⟩ :=
  ⟨(c5_changeFileInfo_only_precreate HookType.postFinish
      ⟨false, false, some ⟨some "x", none⟩, ⟨none, none, none⟩⟩
      ⟨"post-finish", ⟨"up1", some 5, 5, [], [("Type", "s3store")]⟩, ⟨"", []⟩⟩
      "u0" "t0" rfl (by decide) (by decide)).1,
   (c5_changeFileInfo_only_precreate HookType.postFinish
      ⟨false, false, some ⟨some "x", none⟩, ⟨none, none, none⟩⟩
      ⟨"post-finish", ⟨"up1", some 5, 5, [], [("Type", "s3store")]⟩, ⟨"", []⟩⟩
      "u0" "t0" rfl (by decide) (by decide)).2.1⟩

/-- C6: a response with `stopUpload = true` and `rejectUpload` unset
resolves to StopAfterCompletion on post-receive, and on every other hook
type the invalid stop is surfaced as a ProtocolViolation. -/
theorem c6_stopUpload_postReceive_only (ty : HookType) (r : HookResponse)
    (hstop : r.stopUpload = true) (hrej : r.rejectUpload = false) :
    (ty = HookType.postReceive →
        (resolve ty r).1 = Outcome.stopAfterCompletion r.httpResponse) ∧
    (ty ≠ HookType.postReceive →
        Violation.stopUploadInvalidType ty ∈ (resolve ty r).2) := by
  constructor
  · intro h
    simp [resolve, resolveOutcome, hstop, hrej, h]
  · intro h
    simp [resolve, stopViolations, hstop, h]

/-- C6 witness: stop on post-receive stops after completion; stop on
pre-create is a reported violation. -/
theorem c6_stopUpload_postReceive_only_witness :
    (resolve HookType.postReceive
        ⟨false, true, none, ⟨none, none, none⟩⟩).1 =
      Outcome.stopAfterCompletion ⟨none, none, none⟩ ∧
    Violation.stopUploadInvalidType HookType.preCreate ∈
      (resolve HookType.preCreate ⟨false, true, none, ⟨none, none, none⟩⟩).2 :=
  ⟨(c6_stopUpload_postReceive_only HookType.postReceive
      ⟨false, true, none, ⟨none, none, none⟩⟩ rfl rfl).1 rfl,
   (c6_stopUpload_postReceive_only HookType.preCreate
      ⟨false, true, none, ⟨none, none, none⟩⟩ rfl rfl).2 (by decide)⟩

/-- C7: for a known hook type, canonical construction fails with a
`ValidationError` exactly when the `access` field violates the invariant
that it is set iff the type is pre-access. -/
theorem c7_access_validation (s : String) (ty : HookType) (ev : HookEvent)
    (hty : parseHookType s = some ty) :
    (∃ e, mkHookRequest s ev = Except.error e) ↔
      ¬(ev.access.isSome = true ↔ ty = HookType.preAccess) := by
  simp only [mkHookRequest, hty]
  by_cases h : (ev.access.isSome = true ↔ ty = HookType.preAccess)
  · rw [if_pos h]
    simp [h]
  · rw [if_neg h]
    simp [h]

/-- C7 witness: absent `access` with type pre-access fails construction;
present `access` with type post-finish fails likewise. -/
theorem c7_access_validation_witness :
    (∃ e, mkHookRequest "pre-access"
        ⟨⟨"up1", none, 0, [], []⟩, ⟨"PATCH", "/files/up1", "127.0.0.1:80", []⟩,
         none⟩ = Except.error e) ∧
    (∃ e, mkHookRequest "post-finish"
        ⟨⟨"up1", none, 0, [], []⟩, ⟨"PATCH", "/files/up1", "127.0.0.1:80", []⟩,
         some ⟨"read", []⟩⟩ = Except.error e) :=
  ⟨(c7_access_validation "pre-access" HookType.preAccess _ rfl).mpr (by decide),
   (c7_access_validation "post-finish" HookType.postFinish _ rfl).mpr (by decide)⟩

/-- C8: the HTTP example handler always replies with status 200 and
Content-Type application/json, and on every request whose type is not
pre-create the body is exactly the JSON text of the untouched response
skeleton, carrying no directive. -/
theorem c8_default_response (req : WireHookRequest) (uuidStr ctimeStr : String) :
    (doPOST req uuidStr ctimeStr).1 = 200 ∧
    (doPOST req uuidStr ctimeStr).2.1 = "application/json" ∧
    (req.reqType ≠ "pre-create" →
        (doPOST req uuidStr ctimeStr).2.2 =
          "\x7b\"HTTPResponse\": \x7b\"Headers\": \x7b\x7d\x7d\x7d") := by
  refine ⟨rfl, rfl, ?_⟩
  intro h
  simp only [doPOST, httpHookResponseJson, if_neg h]
  rfl

/-- C8 witness: a post-finish request gets the skeleton body. -/
theorem c8_default_response_witness :
    (doPOST ⟨"post-finish", ⟨"up1", some 5, 5, [], [("Type", "s3store")]⟩, ⟨"", []⟩⟩
        "u0" "t0").2.2 =
      "\x7b\"HTTPResponse\": \x7b\"Headers\": \x7b\x7d\x7d\x7d" :=
  (c8_default_response
      ⟨"post-finish", ⟨"up1", some 5, 5, [], [("Type", "s3store")]⟩, ⟨"", []⟩⟩
      "u0" "t0").2.2 (by decide)

/-- C9: on a pre-access request the gRPC example handler indexes
`event.access.files[0]` unconditionally: it returns a response exactly when
the files sequence is non-empty, and fails (IndexError) on an empty one. -/
theorem c9_preaccess_indexes_first_file (req : WireHookRequest)
    (uuidStr ctimeStr : String) (hty : req.reqType = "pre-access") :
    ((InvokeHook req uuidStr ctimeStr).isSome = true ↔ req.access.files ≠ []) ∧
    (req.access.files = [] → InvokeHook req uuidStr ctimeStr = none) := by
  have hne : req.reqType ≠ "pre-create" := by rw [hty]; decide
  constructor
  · rw [InvokeHook, if_neg hne, if_pos hty]
    cases req.access.files with
    | nil => simp
    | cons x xs => simp
  · intro h
    rw [InvokeHook, if_neg hne, if_pos hty, h]

/-- C9 witness: a pre-access request with one file succeeds, with no files
it fails. -/
theorem c9_preaccess_indexes_first_file_witness :
    ((InvokeHook ⟨"pre-access", ⟨"up1", none, 0, [], []⟩,
        ⟨"read", [⟨"up1", some 5, 0, [], []⟩]⟩⟩ "u0" "t0").isSome = true ↔
      ([⟨"up1", some 5, 0, [], []⟩] : List Upload) ≠ []) ∧
    InvokeHook ⟨"pre-access", ⟨"up1", none, 0, [], []⟩, ⟨"read", []⟩⟩ "u0" "t0" =
      none :=
  ⟨(c9_preaccess_indexes_first_file
      ⟨"pre-access", ⟨"up1", none, 0, [], []⟩,
       ⟨"read", [⟨"up1", some 5, 0, [], []⟩]⟩⟩ "u0" "t0" rfl).1,
   (c9_preaccess_indexes_first_file
      ⟨"pre-access", ⟨"up1", none, 0, [], []⟩, ⟨"read", []⟩⟩ "u0" "t0" rfl).2 rfl⟩

/-! ## C10: the regex-based byte-size parser. -/

/-- The two character classes of the regular expression are disjoint. -/
theorem isAlpha_not_digitDot (c : Char) (h : c.isAlpha = true) :
    isDigitDot c = false := by
  rw [isDigitDot]
  simp only [Char.isAlpha, Char.isUpper, Char.isLower, Char.isDigit,
             Bool.or_eq_true, Bool.and_eq_true, decide_eq_true_eq,
             ge_iff_le, UInt32.le_def, BitVec.le_def] at h
  simp only [Bool.or_eq_false_iff, Char.isDigit, Bool.and_eq_false_iff,
             decide_eq_false_iff_not, not_le, ge_iff_le, UInt32.le_def,
             BitVec.le_def, UInt32.lt_def, BitVec.lt_def,
             beq_eq_false_iff_ne, ne_eq]
  have hval : ('.' : Char).val.toBitVec.toNat = 46 := by decide
  have h65 : (65 : UInt32).toBitVec.toNat = 65 := by decide
  have h90 : (90 : UInt32).toBitVec.toNat = 90 := by decide
  have h97 : (97 : UInt32).toBitVec.toNat = 97 := by decide
  have h122 : (122 : UInt32).toBitVec.toNat = 122 := by decide
  have h48 : (48 : UInt32).toBitVec.toNat = 48 := by decide
  have h57 : (57 : UInt32).toBitVec.toNat = 57 := by decide
  rw [h65, h90, h97, h122] at h
  constructor
  · rw [h48, h57]
    omega
  · intro hc
    subst hc
    rw [hval] at h
    omega

/-- A successful `findMatch` decomposes the string: a nonempty
digit-or-dot run immediately followed by a nonempty letter run occurs in
it, and the two runs are the captured groups. -/
theorem findMatch_decomp (cs num u : List Char)
    (h : findMatch cs = some (num, u)) :
    ∃ pre post, cs = pre ++ num ++ u ++ post ∧ num ≠ [] ∧
      num.all isDigitDot = true ∧ u ≠ [] ∧ u.all Char.isAlpha = true := by
  induction cs with
  | nil => exact absurd h (by simp [findMatch])
  | cons c rest ih =>
      rw [findMatch] at h
      by_cases hc : isDigitDot c
      · rw [if_pos hc] at h
        by_cases hu : (((c :: rest).dropWhile isDigitDot).takeWhile
            Char.isAlpha).isEmpty
        · rw [if_pos hu] at h
          obtain ⟨pre, post, hcs, hn, ha, hu2, hb⟩ := ih h
          exact ⟨c :: pre, post, by simp [hcs], hn, ha, hu2, hb⟩
        · rw [if_neg hu] at h
          simp only [Option.some.injEq, Prod.mk.injEq] at h
          obtain ⟨hnum, hun⟩ := h
          refine ⟨[], ((c :: rest).dropWhile isDigitDot).dropWhile Char.isAlpha,
                  ?_, ?_, ?_, ?_, ?_⟩
          · rw [List.nil_append, ← hnum, ← hun, List.append_assoc,
                List.takeWhile_append_dropWhile, List.takeWhile_append_dropWhile]
          · rw [← hnum, List.takeWhile_cons, if_pos hc]
            simp
          · rw [← hnum]
            exact List.all_takeWhile
          · rw [← hun]
            intro hemp
            rw [← List.isEmpty_iff] at hemp
            exact hu hemp
          · rw [← hun]
            exact List.all_takeWhile
      · rw [if_neg hc] at h
        obtain ⟨pre, post, hcs, hn, ha, hu2, hb⟩ := ih h
        exact ⟨c :: pre, post, by simp [hcs], hn, ha, hu2, hb⟩

/-- On a string that is exactly a digit-or-dot run followed by a letter
run, `findMatch` captures the two runs whole. -/
theorem findMatch_exact (num u : List Char) (hn : num ≠ [])
    (hdd : num.all isDigitDot = true) (hu : u ≠ [])
    (ha : u.all Char.isAlpha = true) :
    findMatch (num ++ u) = some (num, u) := by
  obtain ⟨c, num', rfl⟩ := List.exists_cons_of_ne_nil hn
  obtain ⟨d, u', rfl⟩ := List.exists_cons_of_ne_nil hu
  have hnum_all : ∀ a ∈ c :: num', isDigitDot a := by
    intro a hm
    exact List.all_eq_true.mp hdd a hm
  have hu_all : ∀ a ∈ d :: u', Char.isAlpha a := by
    intro a hm
    exact List.all_eq_true.mp ha a hm
  have hc : isDigitDot c := hnum_all c (by simp)
  have hd : isDigitDot d = false :=
    isAlpha_not_digitDot d (hu_all d (by simp))
  have hdw : ((c :: num') ++ d :: u').dropWhile isDigitDot = d :: u' := by
    rw [List.dropWhile_append_of_pos hnum_all, List.dropWhile_cons, hd]
    simp
  have htw : ((c :: num') ++ d :: u').takeWhile isDigitDot = c :: num' := by
    rw [List.takeWhile_append_of_pos hnum_all, List.takeWhile_cons, hd]
    simp
  have hta : (d :: u').takeWhile Char.isAlpha = d :: u' :=
    List.takeWhile_eq_self_iff.mpr hu_all
  show findMatch (c :: (num' ++ d :: u')) = _
  rw [findMatch, if_pos hc]
  have hcons : c :: (num' ++ d :: u') = (c :: num') ++ d :: u' := rfl
  rw [hcons, hdw, hta, htw]
  simp

/-- C10 counterexample: both halves of the claim fail on the code. The
success domain is wrong: "1XB2kB" contains the digit run "2" immediately
followed by the known-unit letter run "kB" (the fragment alone parses to
2000), yet `parse_byte_size` fails on the whole string, because the first
regex match captures the unknown unit "XB". The value is wrong too: on
"4.004kB" the code's binary64 arithmetic yields 4003
(`float("4.004") * 1000 = 4003.9999999999995`), not the exact truncated
product `4004 / 1000 * 1000 = 4004`. -/
theorem c10_counterexample :
    parse_byte_size "1XB2kB" = none ∧
    parse_byte_size "2kB" = some 2000 ∧
    parse_byte_size "4.004kB" = some 4003 ∧
    decimalNum "4.004".data * 1000 / decimalDen "4.004".data = 4004 := by
  refine ⟨rfl, by decide, by decide, by decide⟩

/-- C10 amended: `parse_byte_size` succeeds exactly when the first
digit-or-dot-run-followed-by-letter-run match of the string has a number
with at least one digit and at most one dot, a letter run that is exactly
a known unit, and finite binary64 arithmetic; the result is
`int(float(number) * factor)` in IEEE binary64, not the exact truncated
product. The second conjunct gives the structural meaning of a first
match (the string contains the captured runs), the third its existence on
exactly-number-then-unit strings. -/
theorem c10_amended :
    (∀ (s : String) (v : Int), parse_byte_size s = some v ↔
        ∃ num u f m p m2 p2,
          findMatch s.data = some (num, u) ∧
          goodNumber num = true ∧
          units.lookup (String.mk u) = some f ∧
          roundDouble (decimalNum num) (decimalDen num) = some (m, p) ∧
          mulDouble m p f.toNat = some (m2, p2) ∧
          v = (doubleToInt m2 p2 : Int)) ∧
    (∀ (cs num u : List Char), findMatch cs = some (num, u) →
        ∃ pre post, cs = pre ++ num ++ u ++ post ∧ num ≠ [] ∧
          num.all isDigitDot = true ∧ u ≠ [] ∧ u.all Char.isAlpha = true) ∧
    (∀ (num u : List Char), num ≠ [] → num.all isDigitDot = true →
        u ≠ [] → u.all Char.isAlpha = true →
        findMatch (num ++ u) = some (num, u)) := by
  refine ⟨?_, findMatch_decomp, findMatch_exact⟩
  intro s v
  constructor
  · intro h
    rw [parse_byte_size] at h
    cases hm : findMatch s.data with
    | none => rw [hm] at h; exact absurd h (by simp)
    | some pr =>
        obtain ⟨num, u⟩ := pr
        rw [hm] at h
        have h2 : (match parseNumber num, units.lookup (String.mk u) with
            | some (m, p), some f =>
                (match mulDouble m p f.toNat with
                  | some (m2, p2) => some ((doubleToInt m2 p2 : Nat) : Int)
                  | none => none)
            | _, _ => none) = some v := h
        cases hq : parseNumber num with
        | none => rw [hq] at h2; simp at h2
        | some mp =>
            obtain ⟨m, p⟩ := mp
            cases hf : units.lookup (String.mk u) with
            | none => rw [hq, hf] at h2; simp at h2
            | some f =>
                rw [hq, hf] at h2
                have h3 : (match mulDouble m p f.toNat with
                    | some (m2, p2) => some ((doubleToInt m2 p2 : Nat) : Int)
                    | none => none) = some v := h2
                cases hmul : mulDouble m p f.toNat with
                | none => rw [hmul] at h3; simp at h3
                | some mp2 =>
                    obtain ⟨m2, p2⟩ := mp2
                    rw [hmul] at h3
                    simp only [Option.some.injEq] at h3
                    have hgood : goodNumber num = true := by
                      by_contra hng
                      rw [parseNumber, if_neg hng] at hq
                      exact absurd hq (by simp)
                    have hrd : roundDouble (decimalNum num) (decimalDen num) =
                        some (m, p) := by
                      rw [parseNumber, if_pos hgood] at hq
                      exact hq
                    exact ⟨num, u, f, m, p, m2, p2, rfl, hgood, hf, hrd, hmul,
                           h3.symm⟩
  · rintro ⟨num, u, f, m, p, m2, p2, hm, hgood, hf, hrd, hmul, hv⟩
    rw [parse_byte_size, hm]
    have hpn : parseNumber num = some (m, p) := by
      rw [parseNumber, if_pos hgood]
      exact hrd
    have hinner : (match mulDouble m p f.toNat with
        | some (m2, p2) => some ((doubleToInt m2 p2 : Nat) : Int)
        | none => none) = some v := by
      rw [hmul, hv]
    have hres : (match parseNumber num, units.lookup (String.mk u) with
        | some (m, p), some f =>
            (match mulDouble m p f.toNat with
              | some (m2, p2) => some ((doubleToInt m2 p2 : Nat) : Int)
              | none => none)
        | _, _ => none) = some v := by
      rw [hpn, hf]
      exact hinner
    exact hres

/-- C10 amended witness: the biconditional instantiated at "4.004kB" with
the concrete binary64 run: `float("4.004") = 4508103226997866 * 2^(-50)`,
the product rounds to `8804889115230207 * 2^(-41) = 4003.9999999999995`,
and truncation gives 4003. -/
theorem c10_amended_witness :
    parse_byte_size "4.004kB" = some 4003 :=
  (c10_amended.1 "4.004kB" 4003).mpr
    ⟨"4.004".data, "kB".data, 1000, 4508103226997866, -50,
     8804889115230207, -41, by decide, by decide, by decide, by decide,
     by decide, by decide⟩
